import Mathlib

/-!
Shallow embedding of the `download` command of `src/sbx/cli/cli.py`
(the Bulk Fetcher) and of the helpers it calls, together with proofs of
the spec's claims about it.

Modelling conventions:
* Filesystem and object-storage paths are component lists (`List String`):
  `os.path.join(a, b)` for a relative `b` is list append, and a key that
  ends in the separator `/` has a trailing empty component.
* The local filesystem is the list of existing paths; `os.path.exists` is
  membership and `os.makedirs` inserts a directory and all its ancestors.
* S3 listings contain each key at most once (spec §3: "keys are unique
  within a listing"), so the filesystem seen by each pre-submission
  existence check agrees with the post-listing filesystem on the checked
  path: only the key's own task ever writes that path.
* A failed `client.download_file` leaves no file at its destination
  (boto3's transfer manager removes partial files on error), so exactly
  the successful tasks contribute their local path to the final state.
-/

namespace Sbx

/-- Filesystem or object-storage path, as its list of `/`-separated components. -/
abbrev Path := List String

/-- Remote object key (relative to the bucket root), also as components. -/
abbrev Key := Path

/-- Models `file_to_download.endswith('/')` (cli.py line 407): with component
lists, a trailing separator shows up as a trailing empty component. -/
def endsWithSep (k : Key) : Bool := k.getLast? == some ""

/-- Models `os.path.join(download_dir, key)` (cli.py lines 346, 389, 407). -/
def localPath (download_dir : Path) (k : Key) : Path := download_dir ++ k

/-- Models `os.path.dirname` (cli.py line 390): drop the final component. -/
def dirnameP (p : Path) : Path := p.dropLast

/-- Models `os.path.exists` (cli.py lines 391, 407): membership in the set of
existing paths. -/
def os_path_exists (fs : List Path) (p : Path) : Bool := decide (p ∈ fs)

/-- Nonempty component-prefixes of a directory path, the directory itself
included: the directories `os.makedirs` guarantees to exist afterwards. -/
def ancestorDirs (d : Path) : List Path :=
  (List.range d.length).map (fun n => d.take (n + 1))

/-- Models `os.makedirs(d)` (cli.py line 392): create `d` and every missing
ancestor directory. -/
def os_makedirs (fs : List Path) (d : Path) : List Path := ancestorDirs d ++ fs

/-- State of the single-threaded listing loop (cli.py lines 386-393). -/
structure ListingState where
  fs : List Path
  files_to_download : List Key
deriving DecidableEq

/-- One iteration of the listing loop (cli.py lines 388-393): compute the local
path of the key, create its directory when missing, and record the key in
`files_to_download`. -/
def listingStep (download_dir : Path) (st : ListingState) (key : Key) : ListingState :=
  let local_filename := localPath download_dir key
  let local_file_dir := dirnameP local_filename
  ⟨if os_path_exists st.fs local_file_dir then st.fs else os_makedirs st.fs local_file_dir,
   st.files_to_download ++ [key]⟩

/-- The whole listing loop over the keys enumerated under the bucket's key
range (cli.py lines 386-393), starting from filesystem `fs0`. -/
def listingPass (download_dir : Path) (fs0 : List Path) (keys : List Key) : ListingState :=
  keys.foldl (listingStep download_dir) ⟨fs0, []⟩

/-- Condition of cli.py line 407: a task is created and submitted exactly when
the key is not a pseudo-directory and its local path does not exist. -/
def shouldSubmit (download_dir : Path) (fs : List Path) (k : Key) : Bool :=
  !endsWithSep k && !os_path_exists fs (localPath download_dir k)

/-- Observable events of the submission loop, used to state ordering claims. -/
inductive LoopEvent where
  | check : Key → LoopEvent
  | task : Key → LoopEvent
deriving DecidableEq

/-- Event sequence of one iteration of the submission loop (cli.py lines
406-409): `endswith` short-circuits, so the existence check runs only for
non-pseudo keys, and a passing check is followed immediately by the
submission of that key's task. -/
def submitBlock (download_dir : Path) (fs : List Path) (k : Key) : List LoopEvent :=
  if endsWithSep k then []
  else if os_path_exists fs (localPath download_dir k) then [LoopEvent.check k]
  else [LoopEvent.check k, LoopEvent.task k]

/-- Event sequence of the whole submission loop (cli.py lines 406-409). -/
def submitLoopEvents (download_dir : Path) (fs : List Path) (keys : List Key) : List LoopEvent :=
  keys.flatMap (submitBlock download_dir fs)

/-- Formalisation of the spec's ordering claim: every pre-existing-file check
in the submission loop happens strictly before any task submission. -/
def ChecksBeforeSubmits (es : List LoopEvent) : Prop :=
  ∀ (i j : Nat) (ki kj : Key),
    es[i]? = some (LoopEvent.check ki) → es[j]? = some (LoopEvent.task kj) → i < j

/-- The `as_completed` loop (cli.py lines 411-414): for each resolved future,
in completion order, append its key to `failed_downloads` when it raised, and
tick the progress bar once. Returns the failure list and the tick count. -/
def completionLoop (fails : Key → Bool) (order : List Key) : List Key × Nat :=
  order.foldl (fun acc k => (if fails k then acc.1 ++ [k] else acc.1, acc.2 + 1)) ([], 0)

/-- Final user-facing message of the command (cli.py lines 415-421). -/
inductive FinalMessage where
  | someFailed
  | datasetReady
deriving DecidableEq

/-- Aggregate observable outcome of one run of the download phase. -/
structure RunResult where
  fsFinal : List Path
  submitted : List Key
  failed : List Key
  pbarTotal : Nat
  pbarUpdates : Nat
  message : FinalMessage
deriving DecidableEq

/-- Lines 386-421 of cli.py: the listing pass, the submission loop over
`files_to_download`, the `as_completed` aggregation, and the final message.
`order` is the order in which `as_completed` yields the submitted futures
(theorems hypothesise it to be a permutation of the submitted keys);
`fails k = true` models the fetch of key `k` raising an exception. -/
def runOnce (download_dir : Path) (fs0 : List Path) (keys : List Key)
    (fails : Key → Bool) (order : List Key) : RunResult :=
  let L := listingPass download_dir fs0 keys
  let submitted := L.files_to_download.filter (shouldSubmit download_dir L.fs)
  let agg := completionLoop fails order
  ⟨L.fs ++ (submitted.filter (fun k => !fails k)).map (localPath download_dir),
   submitted, agg.1, L.files_to_download.length, agg.2,
   if agg.1.length > 0 then FinalMessage.someFailed else FinalMessage.datasetReady⟩

/-- Handle on an S3 accessor as far as credentials are concerned: the explicit
keys it was constructed with, if any (`none` means the ambient default
credential chain is used). -/
structure S3Client where
  aws_access_key_id : Option String
  aws_secret_access_key : Option String
deriving DecidableEq

/-- Models `boto3.resource("s3")` on cli.py line 384: constructed without any
credentials, so it falls back to the ambient default credential chain. -/
def boto3_resource_s3 : S3Client := ⟨none, none⟩

/-- Fields of the parsed JSON response of `POST /user/get-aws-creds` that the
`download` command subscripts (cli.py lines 359-382). -/
structure AwsCredsResponse where
  synth_full_dataset_uri : String
  synth_sample_dataset_uri : String
  dataset_uri : String
  access_key : String
  secret_key : String
deriving DecidableEq

/-- Result fields of `urllib.parse.urlparse` used by the command. -/
structure UrlParts where
  netloc : String
  path : String
deriving DecidableEq

/-- Models the fragment of `urllib.parse.urlparse` the command relies on
(cli.py lines 375-376): `netloc` and `path` of a `scheme://netloc/path` URL. -/
def urlparse (url : String) : UrlParts :=
  match url.splitOn "://" with
  | [_, rest] =>
    match rest.splitOn "/" with
    | [] => ⟨rest, ""⟩
    | netloc :: tail =>
      ⟨netloc, if tail.isEmpty then "" else "/" ++ String.intercalate "/" tail⟩
  | _ => ⟨"", url⟩

/-- Values the command has set up just before the listing loop starts. -/
structure DownloadSetup where
  bucket_name : String
  pfx_path : String
  client : S3Client
  listing_resource : S3Client
deriving DecidableEq

/-- Lines 360-385 of cli.py: choose the full or the sample dataset URI, parse
the bucket name and the key range out of the URIs, build the S3 `client` with
the access/secret keys of the response (lines 380-383), and build the
`resource` used for the listing with no credentials at all (line 384). -/
def downloadSetup (res : AwsCredsResponse) (sample : Bool) : DownloadSetup :=
  let s3_bucket_path :=
    if sample then res.synth_sample_dataset_uri else res.synth_full_dataset_uri
  ⟨(urlparse res.dataset_uri).netloc,
   (urlparse s3_bucket_path).path.drop 1,
   ⟨some res.access_key, some res.secret_key⟩,
   boto3_resource_s3⟩

/-- Unhandled Python exceptions the embedded command can raise. -/
inductive PyError where
  | typeErrorNoneNotSubscriptable
deriving DecidableEq

/-- Side effects of one invocation of the `download` command that the safety
claims talk about. -/
structure CommandTrace where
  promptedCreateDir : Bool
  enumerationStarted : Bool
  filesWritten : List Path
  echoed : List String
deriving DecidableEq

/-- The body of the `download` command (cli.py lines 354-421).
`datasetIdMalformed` models the outcome of `check_object_id`; `credsResp` is
the value `sbx_post('/user/get-aws-creds', ...)` returned (`none` when the
request failed and the helper returned `None`); `dirExists`/`createAnswer`
model the `os.path.exists(download_dir)` test and the prompt answer; `keys` is
what the listing enumerates. Subscripting `None` on line 360 raises a
`TypeError`, which no surrounding code catches. -/
def downloadCommand (datasetIdMalformed : Bool) (credsResp : Option AwsCredsResponse)
    (sample : Bool) (dirExists : Bool) (createAnswer : String)
    (download_dir : Path) (fs0 : List Path) (keys : List Key)
    (fails : Key → Bool) (order : List Key) :
    Except PyError (Option RunResult) × CommandTrace :=
  if datasetIdMalformed then
    (Except.ok none, ⟨false, false, [], ["Ooops, malformed id"]⟩)
  else
    match credsResp with
    | none => (Except.error PyError.typeErrorNoneNotSubscriptable, ⟨false, false, [], []⟩)
    | some res =>
      if ¬dirExists ∧ createAnswer ≠ "Y" ∧ createAnswer ≠ "y" then
        (Except.ok none, ⟨true, false, [], []⟩)
      else
        let _setup := downloadSetup res sample
        let r := runOnce download_dir fs0 keys fails order
        (Except.ok (some r),
         ⟨!dirExists, true,
          (r.submitted.filter (fun k => !fails k)).map (localPath download_dir),
          ["Setting up directory structure", "Starting download...",
           if r.failed.length > 0 then "Some downloads have failed. Try rerunning"
           else "Dataset Ready!"]⟩)

/-- Pool size of `ThreadPoolExecutor(max_workers=32)` (cli.py line 403). -/
def max_workers : Nat := 32

/-- State of the worker pool: tasks not yet started, tasks currently executing
a fetch (in flight), and resolved tasks. -/
structure PoolState where
  pending : List Key
  running : List Key
  done : List Key

/-- One scheduling step of `ThreadPoolExecutor`: a pending task starts only
while fewer than `maxW` tasks are running (the executor has `maxW` worker
threads), and a running task may resolve, successfully or with an exception. -/
inductive PoolStep (maxW : Nat) : PoolState → PoolState → Prop
  | start (k : Key) (p r d : List Key) :
      k ∈ p → r.length < maxW → PoolStep maxW ⟨p, r, d⟩ ⟨p.erase k, k :: r, d⟩
  | finish (k : Key) (p r d : List Key) :
      k ∈ r → PoolStep maxW ⟨p, r, d⟩ ⟨p, r.erase k, k :: d⟩

/-- Reachability under pool scheduling steps. -/
def PoolReachable (maxW : Nat) : PoolState → PoolState → Prop :=
  Relation.ReflTransGen (PoolStep maxW)

/-- Filesystem sanity property: an existing path's ancestor directories exist
too (true of any real directory tree, and preserved by `os.makedirs`). -/
def AncClosed (fs : List Path) : Prop :=
  ∀ p ∈ fs, ∀ q ∈ ancestorDirs p, q ∈ fs

/-!  Helper lemmas about the embedded operations. -/

theorem listingStep_files (dir : Path) (st : ListingState) (k : Key) :
    (listingStep dir st k).files_to_download = st.files_to_download ++ [k] := rfl

theorem foldl_listingStep_files (dir : Path) (keys : List Key) :
    ∀ st : ListingState,
      (keys.foldl (listingStep dir) st).files_to_download = st.files_to_download ++ keys := by
  induction keys with
  | nil => intro st; simp
  | cons k rest ih =>
    intro st
    simp only [List.foldl_cons, ih, listingStep_files, List.append_assoc, List.singleton_append]

theorem listingPass_files (dir : Path) (fs0 : List Path) (keys : List Key) :
    (listingPass dir fs0 keys).files_to_download = keys := by
  simpa using foldl_listingStep_files dir keys ⟨fs0, []⟩

theorem listingStep_fs_mono (dir : Path) (st : ListingState) (k : Key) {p : Path}
    (h : p ∈ st.fs) : p ∈ (listingStep dir st k).fs := by
  simp only [listingStep]
  split
  · exact h
  · exact List.mem_append_right _ h

theorem foldl_listingStep_fs_mono (dir : Path) (keys : List Key) :
    ∀ (st : ListingState) {p : Path}, p ∈ st.fs → p ∈ (keys.foldl (listingStep dir) st).fs := by
  induction keys with
  | nil => intro st p h; simpa using h
  | cons k rest ih =>
    intro st p h
    simp only [List.foldl_cons]
    exact ih _ (listingStep_fs_mono dir st k h)

theorem listingPass_fs_mono (dir : Path) (fs0 : List Path) (keys : List Key) {p : Path}
    (h : p ∈ fs0) : p ∈ (listingPass dir fs0 keys).fs :=
  foldl_listingStep_fs_mono dir keys ⟨fs0, []⟩ h

theorem mem_ancestorDirs {q d : Path} :
    q ∈ ancestorDirs d ↔ ∃ n, n < d.length ∧ q = d.take (n + 1) := by
  unfold ancestorDirs
  constructor
  · intro h
    rcases List.mem_map.mp h with ⟨n, hn, rfl⟩
    exact ⟨n, List.mem_range.mp hn, rfl⟩
  · rintro ⟨n, hn, rfl⟩
    exact List.mem_map.mpr ⟨n, List.mem_range.mpr hn, rfl⟩

theorem ancestorDirs_trans {d q r : Path} (hq : q ∈ ancestorDirs d) (hr : r ∈ ancestorDirs q) :
    r ∈ ancestorDirs d := by
  rcases mem_ancestorDirs.mp hq with ⟨n, hn, rfl⟩
  rcases mem_ancestorDirs.mp hr with ⟨m, hm, rfl⟩
  have hlen : ((d.take (n + 1)).length) = n + 1 := by
    rw [List.length_take]; omega
  rw [hlen] at hm
  refine mem_ancestorDirs.mpr ⟨m, by omega, ?_⟩
  rw [List.take_take, Nat.min_eq_left (by omega)]

theorem ancClosed_nil : AncClosed [] :=
  fun p hp => absurd hp (List.not_mem_nil p)

theorem ancClosed_makedirs {fs : List Path} (h : AncClosed fs) (d : Path) :
    AncClosed (os_makedirs fs d) := by
  intro p hp q hq
  unfold os_makedirs at hp ⊢
  rcases List.mem_append.mp hp with h1 | h2
  · exact List.mem_append_left _ (ancestorDirs_trans h1 hq)
  · exact List.mem_append_right _ (h p h2 q hq)

theorem ancClosed_listingStep (dir : Path) {st : ListingState} (h : AncClosed st.fs)
    (k : Key) : AncClosed (listingStep dir st k).fs := by
  simp only [listingStep]
  split
  · exact h
  · exact ancClosed_makedirs h _

theorem listingStep_covers (dir : Path) {st : ListingState} (h : AncClosed st.fs) (k : Key)
    {q : Path} (hq : q ∈ ancestorDirs (dirnameP (localPath dir k))) :
    q ∈ (listingStep dir st k).fs := by
  simp only [listingStep]
  split
  · rename_i hex
    have hd : dirnameP (localPath dir k) ∈ st.fs := by
      simpa [os_path_exists] using hex
    exact h _ hd _ hq
  · exact List.mem_append_left _ hq

theorem foldl_listingStep_covers (dir : Path) (keys : List Key) :
    ∀ (st : ListingState), AncClosed st.fs → ∀ k ∈ keys,
      ∀ q ∈ ancestorDirs (dirnameP (localPath dir k)),
        q ∈ (keys.foldl (listingStep dir) st).fs := by
  induction keys with
  | nil => intro st _ k hk; cases hk
  | cons k0 rest ih =>
    intro st hcl k hk q hq
    simp only [List.foldl_cons]
    rcases List.mem_cons.mp hk with rfl | hmem
    · exact foldl_listingStep_fs_mono dir rest _ (listingStep_covers dir hcl k hq)
    · exact ih _ (ancClosed_listingStep dir hcl k0) k hmem q hq

theorem completionLoop_foldl (fails : Key → Bool) (order : List Key) :
    ∀ acc : List Key × Nat,
      order.foldl (fun acc k => (if fails k then acc.1 ++ [k] else acc.1, acc.2 + 1)) acc
        = (acc.1 ++ order.filter fails, acc.2 + order.length) := by
  induction order with
  | nil => intro acc; simp
  | cons k rest ih =>
    intro acc
    simp only [List.foldl_cons, ih, List.filter_cons, List.length_cons]
    cases h : fails k <;> simp [h, List.append_assoc] <;> omega

theorem completionLoop_eq (fails : Key → Bool) (order : List Key) :
    completionLoop fails order = (order.filter fails, order.length) := by
  unfold completionLoop
  rw [completionLoop_foldl]
  simp

theorem runOnce_submitted (dir : Path) (fs0 : List Path) (keys : List Key)
    (fails : Key → Bool) (order : List Key) :
    (runOnce dir fs0 keys fails order).submitted
      = keys.filter (shouldSubmit dir (listingPass dir fs0 keys).fs) := by
  simp [runOnce, listingPass_files]

theorem runOnce_failed (dir : Path) (fs0 : List Path) (keys : List Key)
    (fails : Key → Bool) (order : List Key) :
    (runOnce dir fs0 keys fails order).failed = order.filter fails := by
  simp [runOnce, completionLoop_eq]

theorem runOnce_fsFinal (dir : Path) (fs0 : List Path) (keys : List Key)
    (fails : Key → Bool) (order : List Key) :
    (runOnce dir fs0 keys fails order).fsFinal
      = (listingPass dir fs0 keys).fs
        ++ ((keys.filter (shouldSubmit dir (listingPass dir fs0 keys).fs)).filter
              (fun k => !fails k)).map (localPath dir) := by
  simp [runOnce, listingPass_files]

theorem runOnce_pbarTotal (dir : Path) (fs0 : List Path) (keys : List Key)
    (fails : Key → Bool) (order : List Key) :
    (runOnce dir fs0 keys fails order).pbarTotal = keys.length := by
  simp [runOnce, listingPass_files]

theorem runOnce_pbarUpdates (dir : Path) (fs0 : List Path) (keys : List Key)
    (fails : Key → Bool) (order : List Key) :
    (runOnce dir fs0 keys fails order).pbarUpdates = order.length := by
  simp [runOnce, completionLoop_eq]

theorem runOnce_message (dir : Path) (fs0 : List Path) (keys : List Key)
    (fails : Key → Bool) (order : List Key) :
    (runOnce dir fs0 keys fails order).message
      = (if (order.filter fails).length > 0 then FinalMessage.someFailed
         else FinalMessage.datasetReady) := by
  simp [runOnce, completionLoop_eq]

/-!  Claim theorems. -/

/-- C1: in a run where exactly one submitted task raises an exception, every
submitted task is still attempted and resolved by the `as_completed` loop, the
final failure list is exactly the one failing key, and no local file exists at
that key's destination path afterwards. -/
theorem c1_partial_failure_isolation (dir : Path) (fs0 : List Path) (keys : List Key)
    (fails : Key → Bool) (order : List Key) (kbad : Key)
    (horder : order.Perm (runOnce dir fs0 keys fails order).submitted)
    (hone : (runOnce dir fs0 keys fails order).submitted.filter fails = [kbad]) :
    (runOnce dir fs0 keys fails order).failed = [kbad] ∧
    (∀ k, k ∈ (runOnce dir fs0 keys fails order).submitted ↔ k ∈ order) ∧
    localPath dir kbad ∉ (runOnce dir fs0 keys fails order).fsFinal := by
  have hperm : (order.filter fails).Perm [kbad] := by
    have h := horder.filter fails
    rwa [hone] at h
  have hfailed : (runOnce dir fs0 keys fails order).failed = [kbad] := by
    rw [runOnce_failed]
    exact List.perm_singleton.mp hperm
  have hkbad : kbad ∈ (runOnce dir fs0 keys fails order).submitted ∧ fails kbad = true := by
    have h : kbad ∈ (runOnce dir fs0 keys fails order).submitted.filter fails := by
      rw [hone]; exact List.mem_singleton_self kbad
    exact List.mem_filter.mp h
  have hnotdisk : localPath dir kbad ∉ (listingPass dir fs0 keys).fs := by
    have hmem := hkbad.1
    rw [runOnce_submitted] at hmem
    have hp := (List.mem_filter.mp hmem).2
    simp only [shouldSubmit, Bool.and_eq_true, Bool.not_eq_true', os_path_exists,
      decide_eq_false_iff_not] at hp
    exact hp.2
  refine ⟨hfailed, fun k => horder.mem_iff.symm, ?_⟩
  rw [runOnce_fsFinal]
  intro hmem
  rcases List.mem_append.mp hmem with hfs | hmap
  · exact hnotdisk hfs
  · rcases List.mem_map.mp hmap with ⟨k, hkmem, heq⟩
    have hkk : k = kbad := List.append_cancel_left heq
    subst hkk
    have hsucc := (List.mem_filter.mp hkmem).2
    rw [hkbad.2] at hsucc
    simp at hsucc

/-- Witness for C1: three keys, the fetch of `b` raises, completion order is
reversed. -/
theorem c1_witness :
    (runOnce (["D"] : Path) [] [["a"], ["b"], ["c"]] (fun k => k == ["b"])
        [["c"], ["b"], ["a"]]).failed = [["b"]] ∧
    ((["c"] : Key) ∈ (runOnce (["D"] : Path) [] [["a"], ["b"], ["c"]] (fun k => k == ["b"])
        [["c"], ["b"], ["a"]]).submitted ↔
      (["c"] : Key) ∈ ([["c"], ["b"], ["a"]] : List Key)) ∧
    localPath ["D"] ["b"] ∉ (runOnce (["D"] : Path) [] [["a"], ["b"], ["c"]]
        (fun k => k == ["b"]) [["c"], ["b"], ["a"]]).fsFinal := by
  have h := c1_partial_failure_isolation ["D"] [] [["a"], ["b"], ["c"]]
    (fun k => k == ["b"]) [["c"], ["b"], ["a"]] ["b"] (by decide) (by decide)
  exact ⟨h.1, h.2.1 ["c"], h.2.2⟩

/-- C2: a key whose computed local path already exists on disk before the run,
or that ends in the separator (a pseudo-directory), never has a Download Task
created or submitted to the worker pool. -/
theorem c2_skip_existing_and_pseudo (dir : Path) (fs0 : List Path) (keys : List Key)
    (fails : Key → Bool) (order : List Key) (k : Key) (_hk : k ∈ keys)
    (hskip : localPath dir k ∈ fs0 ∨ endsWithSep k = true) :
    k ∉ (runOnce dir fs0 keys fails order).submitted := by
  rw [runOnce_submitted]
  intro hmem
  have hp := (List.mem_filter.mp hmem).2
  simp only [shouldSubmit, Bool.and_eq_true, Bool.not_eq_true', os_path_exists,
    decide_eq_false_iff_not] at hp
  rcases hskip with hex | hsep
  · exact hp.2 (listingPass_fs_mono dir fs0 keys hex)
  · rw [hp.1] at hsep
    cases hsep

/-- Witness for C2: the local path of key `a` pre-exists, so `a` is not
submitted. -/
theorem c2_witness :
    (["a"] : Key) ∉ (runOnce (["D"] : Path) [["D", "a"]] [["a"], ["b"]]
        (fun _ => false) [["b"]]).submitted :=
  c2_skip_existing_and_pseudo ["D"] [["D", "a"]] [["a"], ["b"]] (fun _ => false) [["b"]]
    ["a"] (by decide) (Or.inl (by decide))

/-- C5: an exception in an individual fetch never propagates out of the
download phase — the command returns normally for every pattern of task
failures, each raising task contributes exactly one entry to the failure list —
and after all tasks resolve the failure message is emitted precisely when the
failure list is nonempty, the success message otherwise. -/
theorem c5_errors_as_data (res : AwsCredsResponse) (sample : Bool) (ans : String)
    (dir : Path) (fs0 : List Path) (keys : List Key) (fails : Key → Bool) (order : List Key)
    (horder : order.Perm (runOnce dir fs0 keys fails order).submitted) :
    (downloadCommand false (some res) sample true ans dir fs0 keys fails order).1
      = Except.ok (some (runOnce dir fs0 keys fails order)) ∧
    (∀ k, k ∈ (runOnce dir fs0 keys fails order).failed ↔
      k ∈ (runOnce dir fs0 keys fails order).submitted ∧ fails k = true) ∧
    ((runOnce dir fs0 keys fails order).message = FinalMessage.someFailed ↔
      (runOnce dir fs0 keys fails order).failed ≠ []) ∧
    ((runOnce dir fs0 keys fails order).message = FinalMessage.datasetReady ↔
      (runOnce dir fs0 keys fails order).failed = []) := by
  refine ⟨by simp [downloadCommand], ?_, ?_, ?_⟩
  · intro k
    rw [runOnce_failed, List.mem_filter]
    exact and_congr_left (fun _ => horder.mem_iff)
  · rw [runOnce_message, runOnce_failed]
    cases hfl : order.filter fails <;> simp
  · rw [runOnce_message, runOnce_failed]
    cases hfl : order.filter fails <;> simp

/-- Witness for C5 with one failing and one succeeding fetch. -/
theorem c5_witness :
    (downloadCommand false (some ⟨"s3://bkt/full", "s3://bkt/sample", "s3://bkt/full",
        "AK", "SK"⟩) false true "" ["D"] [] [["a"], ["b"]] (fun k => k == ["b"])
        [["b"], ["a"]]).1
      = Except.ok (some (runOnce ["D"] [] [["a"], ["b"]] (fun k => k == ["b"])
          [["b"], ["a"]])) ∧
    ((["b"] : Key) ∈ (runOnce (["D"] : Path) [] [["a"], ["b"]] (fun k => k == ["b"])
        [["b"], ["a"]]).failed ↔
      (["b"] : Key) ∈ (runOnce (["D"] : Path) [] [["a"], ["b"]] (fun k => k == ["b"])
        [["b"], ["a"]]).submitted ∧ ((["b"] : Key) == (["b"] : Key)) = true) ∧
    ((runOnce (["D"] : Path) [] [["a"], ["b"]] (fun k => k == ["b"])
        [["b"], ["a"]]).message = FinalMessage.someFailed ↔
      (runOnce (["D"] : Path) [] [["a"], ["b"]] (fun k => k == ["b"])
        [["b"], ["a"]]).failed ≠ []) ∧
    ((runOnce (["D"] : Path) [] [["a"], ["b"]] (fun k => k == ["b"])
        [["b"], ["a"]]).message = FinalMessage.datasetReady ↔
      (runOnce (["D"] : Path) [] [["a"], ["b"]] (fun k => k == ["b"])
        [["b"], ["a"]]).failed = []) := by
  have h := c5_errors_as_data ⟨"s3://bkt/full", "s3://bkt/sample", "s3://bkt/full",
    "AK", "SK"⟩ false "" ["D"] [] [["a"], ["b"]] (fun k => k == ["b"])
    [["b"], ["a"]] (by decide)
  exact ⟨h.1, h.2.1 ["b"], h.2.2.1, h.2.2.2⟩

/-- C9: the progress bar's total counts every enumerated key — pseudo-directory
keys and already-present keys included — while one update is issued per
submitted task only, so updates equal the number of submitted tasks and fall
strictly short of the displayed total exactly when some key is skipped. -/
theorem c9_progress_accounting (dir : Path) (fs0 : List Path) (keys : List Key)
    (fails : Key → Bool) (order : List Key)
    (horder : order.Perm (runOnce dir fs0 keys fails order).submitted) :
    (runOnce dir fs0 keys fails order).pbarTotal = keys.length ∧
    (runOnce dir fs0 keys fails order).pbarUpdates
      = (runOnce dir fs0 keys fails order).submitted.length ∧
    ((runOnce dir fs0 keys fails order).pbarUpdates
        < (runOnce dir fs0 keys fails order).pbarTotal ↔
      ∃ k ∈ keys, shouldSubmit dir (listingPass dir fs0 keys).fs k = false) := by
  have hupd := runOnce_pbarUpdates dir fs0 keys fails order
  have htot := runOnce_pbarTotal dir fs0 keys fails order
  have hlen : order.length = (runOnce dir fs0 keys fails order).submitted.length :=
    horder.length_eq
  refine ⟨htot, by rw [hupd, hlen], ?_⟩
  rw [hupd, htot, hlen, runOnce_submitted]
  rw [List.length_filter_lt_length_iff_exists]
  simp [Bool.not_eq_true]

/-- Witness for C9: one real key and one pseudo-directory key, so one update
against a displayed total of two. -/
theorem c9_witness :
    (runOnce (["D"] : Path) [] [["a"], ["b", ""]] (fun _ => false) [["a"]]).pbarTotal
      = ([["a"], ["b", ""]] : List Key).length ∧
    (runOnce (["D"] : Path) [] [["a"], ["b", ""]] (fun _ => false) [["a"]]).pbarUpdates
      = (runOnce (["D"] : Path) [] [["a"], ["b", ""]] (fun _ => false)
          [["a"]]).submitted.length := by
  have h := c9_progress_accounting ["D"] [] [["a"], ["b", ""]] (fun _ => false) [["a"]]
    (by decide)
  exact ⟨h.1, h.2.1⟩

/-- C4 (original claim refuted): the pre-existing-file checks do not all
complete before the first task submission — with two missing keys, the
existence check of the second key (event index 2) happens after the first
key's task has been submitted (event index 1). -/
theorem c4_counterexample :
    ¬ ChecksBeforeSubmits (submitLoopEvents ["D"] [] [["a"], ["b"]]) := by
  intro h
  have hlt := h 2 1 ["b"] ["a"] (by rfl) (by rfl)
  omega

/-- C4 (amended): the submission loop runs in the single controlling thread
and performs each key's existence check immediately before that key's own
submission, so every submitted task's check strictly precedes its submission;
checks of later keys, however, occur after earlier submissions, interleaved
with already-running downloads. -/
theorem c4_check_precedes_own_submit (dir : Path) (fs : List Path) (keys : List Key)
    (j : Nat) (k : Key)
    (hj : (submitLoopEvents dir fs keys)[j]? = some (LoopEvent.task k)) :
    ∃ i, i < j ∧ (submitLoopEvents dir fs keys)[i]? = some (LoopEvent.check k) := by
  induction keys generalizing j with
  | nil => simp [submitLoopEvents] at hj
  | cons k0 rest ih =>
    have hdecomp : submitLoopEvents dir fs (k0 :: rest)
        = submitBlock dir fs k0 ++ submitLoopEvents dir fs rest := by
      simp [submitLoopEvents]
    by_cases hsep : endsWithSep k0 = true
    · have hb : submitBlock dir fs k0 = [] := by simp [submitBlock, hsep]
      rw [hdecomp, hb, List.nil_append] at hj ⊢
      exact ih j hj
    · by_cases hex : os_path_exists fs (localPath dir k0) = true
      · have hb : submitBlock dir fs k0 = [LoopEvent.check k0] := by
          simp [submitBlock, hsep, hex]
        rw [hdecomp, hb] at hj ⊢
        cases j with
        | zero => simp at hj
        | succ j1 =>
          have hj' : (submitLoopEvents dir fs rest)[j1]? = some (LoopEvent.task k) := by
            simpa using hj
          obtain ⟨i, hi, hchk⟩ := ih j1 hj'
          exact ⟨i + 1, by omega, by simpa using hchk⟩
      · have hb : submitBlock dir fs k0 = [LoopEvent.check k0, LoopEvent.task k0] := by
          simp [submitBlock, hsep, hex]
        rw [hdecomp, hb] at hj ⊢
        cases j with
        | zero => simp at hj
        | succ j1 =>
          cases j1 with
          | zero =>
            have hk : k0 = k := by simpa using hj
            subst hk
            exact ⟨0, by omega, by simp⟩
          | succ j2 =>
            have hj' : (submitLoopEvents dir fs rest)[j2]? = some (LoopEvent.task k) := by
              simpa using hj
            obtain ⟨i, hi, hchk⟩ := ih j2 hj'
            exact ⟨i + 2, by omega, by simpa using hchk⟩

/-- Witness for C4 (amended): the submission of `b` at event index 3 is
preceded by the check of `b`. -/
theorem c4_witness :
    ∃ i, i < 3 ∧ (submitLoopEvents (["D"] : Path) [] [["a"], ["b"]])[i]?
      = some (LoopEvent.check ["b"]) :=
  c4_check_precedes_own_submit ["D"] [] [["a"], ["b"]] 3 ["b"] (by rfl)

/-- C6: after a fully successful first run, a second run over the unchanged
key listing with the same destination submits zero Download Tasks and reports
success. -/
theorem c6_idempotent_second_run (dir : Path) (fs0 : List Path) (keys : List Key)
    (fails1 : Key → Bool) (order1 : List Key) (fails2 : Key → Bool) (order2 : List Key)
    (horder1 : order1.Perm (runOnce dir fs0 keys fails1 order1).submitted)
    (hok : (runOnce dir fs0 keys fails1 order1).failed = [])
    (horder2 : order2.Perm
      (runOnce dir (runOnce dir fs0 keys fails1 order1).fsFinal keys fails2 order2).submitted) :
    (runOnce dir (runOnce dir fs0 keys fails1 order1).fsFinal keys fails2 order2).submitted
      = [] ∧
    (runOnce dir (runOnce dir fs0 keys fails1 order1).fsFinal keys fails2 order2).failed
      = [] ∧
    (runOnce dir (runOnce dir fs0 keys fails1 order1).fsFinal keys fails2 order2).message
      = FinalMessage.datasetReady := by
  have hfail1 : ∀ k ∈ (runOnce dir fs0 keys fails1 order1).submitted, fails1 k = false := by
    have h1 : order1.filter fails1 = [] := by rwa [runOnce_failed] at hok
    have h2 : ((runOnce dir fs0 keys fails1 order1).submitted.filter fails1).Perm
        ([] : List Key) := by
      have h := horder1.symm.filter fails1
      rwa [h1] at h
    have h3 := List.Perm.eq_nil h2
    intro k hk
    cases hf : fails1 k with
    | false => rfl
    | true =>
      have hmem : k ∈ (runOnce dir fs0 keys fails1 order1).submitted.filter fails1 :=
        List.mem_filter.mpr ⟨hk, hf⟩
      rw [h3] at hmem
      cases hmem
  have hcov : ∀ k ∈ keys, endsWithSep k = false →
      localPath dir k ∈ (runOnce dir fs0 keys fails1 order1).fsFinal := by
    intro k hk hsep
    by_cases hss : shouldSubmit dir (listingPass dir fs0 keys).fs k = true
    · have hmem : k ∈ (runOnce dir fs0 keys fails1 order1).submitted := by
        rw [runOnce_submitted]
        exact List.mem_filter.mpr ⟨hk, hss⟩
      have hf := hfail1 k hmem
      rw [runOnce_fsFinal]
      refine List.mem_append_right _ (List.mem_map.mpr ⟨k, ?_, rfl⟩)
      rw [← runOnce_submitted dir fs0 keys fails1 order1]
      exact List.mem_filter.mpr ⟨hmem, by simp [hf]⟩
    · have hex : localPath dir k ∈ (listingPass dir fs0 keys).fs := by
        cases hoe : os_path_exists (listingPass dir fs0 keys).fs (localPath dir k) with
        | true => simpa [os_path_exists] using hoe
        | false => exact absurd (by simp [shouldSubmit, hsep, hoe]) hss
      rw [runOnce_fsFinal]
      exact List.mem_append_left _ hex
  have hsub2 : (runOnce dir (runOnce dir fs0 keys fails1 order1).fsFinal keys fails2
      order2).submitted = [] := by
    rw [runOnce_submitted]
    apply List.filter_eq_nil_iff.mpr
    intro k hk hss
    simp only [shouldSubmit, Bool.and_eq_true, Bool.not_eq_true', os_path_exists,
      decide_eq_false_iff_not] at hss
    exact hss.2 (listingPass_fs_mono dir _ keys (hcov k hk hss.1))
  have hord2 : order2 = [] := List.Perm.eq_nil (by rwa [hsub2] at horder2)
  refine ⟨hsub2, ?_, ?_⟩
  · rw [runOnce_failed, hord2]
    rfl
  · rw [runOnce_message, hord2]
    rfl

/-- Witness for C6: one key, fully successful first run, second run submits
nothing and reports success. -/
theorem c6_witness :
    (runOnce (["D"] : Path) (runOnce ["D"] [] [["a"]] (fun _ => false) [["a"]]).fsFinal
        [["a"]] (fun _ => true) []).submitted = [] ∧
    (runOnce (["D"] : Path) (runOnce ["D"] [] [["a"]] (fun _ => false) [["a"]]).fsFinal
        [["a"]] (fun _ => true) []).failed = [] ∧
    (runOnce (["D"] : Path) (runOnce ["D"] [] [["a"]] (fun _ => false) [["a"]]).fsFinal
        [["a"]] (fun _ => true) []).message = FinalMessage.datasetReady :=
  c6_idempotent_second_run ["D"] [] [["a"]] (fun _ => false) [["a"]] (fun _ => true) []
    (by decide) (by decide) (by decide)

/-- C7: the parent directories of every enumerated key's computed local path
are created during the single-threaded listing pass — so they are present in
the pre-download filesystem — and they still exist in the final state no
matter which downloads fail. -/
theorem c7_dirs_created_in_listing_pass (dir : Path) (fs0 : List Path) (keys : List Key)
    (fails : Key → Bool) (order : List Key) (hclosed : AncClosed fs0)
    (k : Key) (hk : k ∈ keys) (q : Path)
    (hq : q ∈ ancestorDirs (dirnameP (localPath dir k))) :
    q ∈ (listingPass dir fs0 keys).fs ∧ q ∈ (runOnce dir fs0 keys fails order).fsFinal := by
  have h1 : q ∈ (listingPass dir fs0 keys).fs :=
    foldl_listingStep_covers dir keys ⟨fs0, []⟩ hclosed k hk q hq
  refine ⟨h1, ?_⟩
  rw [runOnce_fsFinal]
  exact List.mem_append_left _ h1

/-- Witness for C7: key `a/b/c.png` with destination `D` — directories `D/a`
and `D/a/b` exist after the listing pass and survive a failing download. -/
theorem c7_witness :
    ((["D", "a"] : Path) ∈ (listingPass ["D"] [] [["a", "b", "c.png"]]).fs ∧
      (["D", "a"] : Path) ∈ (runOnce ["D"] [] [["a", "b", "c.png"]] (fun _ => true)
        [["a", "b", "c.png"]]).fsFinal) ∧
    ((["D", "a", "b"] : Path) ∈ (listingPass ["D"] [] [["a", "b", "c.png"]]).fs ∧
      (["D", "a", "b"] : Path) ∈ (runOnce ["D"] [] [["a", "b", "c.png"]] (fun _ => true)
        [["a", "b", "c.png"]]).fsFinal) :=
  ⟨c7_dirs_created_in_listing_pass ["D"] [] [["a", "b", "c.png"]] (fun _ => true)
      [["a", "b", "c.png"]] ancClosed_nil ["a", "b", "c.png"] (by decide) ["D", "a"]
      (by decide),
   c7_dirs_created_in_listing_pass ["D"] [] [["a", "b", "c.png"]] (fun _ => true)
      [["a", "b", "c.png"]] ancClosed_nil ["a", "b", "c.png"] (by decide) ["D", "a", "b"]
      (by decide)⟩

/-- Helper: a pool scheduling step preserves the in-flight bound. -/
theorem poolStep_running_le {maxW : Nat} {s t : PoolState} (hst : PoolStep maxW s t)
    (h : s.running.length ≤ maxW) : t.running.length ≤ maxW := by
  cases hst with
  | start k p r d hk hr =>
    simp only [List.length_cons]
    omega
  | finish k p r d hk =>
    have hle := (List.erase_sublist k r).length_le
    have h2 : r.length ≤ maxW := h
    show (r.erase k).length ≤ maxW
    omega

/-- C8: with the worker pool of `ThreadPoolExecutor(max_workers=32)`, at most
32 object fetches are in flight simultaneously in every reachable pool state. -/
theorem c8_concurrency_bound (submitted : List Key) (s : PoolState)
    (h : PoolReachable max_workers ⟨submitted, [], []⟩ s) :
    s.running.length ≤ 32 := by
  have hinv : ∀ t : PoolState, PoolReachable max_workers ⟨submitted, [], []⟩ t →
      t.running.length ≤ max_workers := by
    intro t ht
    induction ht with
    | refl => exact Nat.zero_le _
    | tail hr hstep ih => exact poolStep_running_le hstep ih
  exact hinv s h

/-- Witness for C8 at the initial pool state. -/
theorem c8_witness : (⟨[["a"]], [], []⟩ : PoolState).running.length ≤ 32 :=
  c8_concurrency_bound [["a"]] ⟨[["a"]], [], []⟩ Relation.ReflTransGen.refl

/-- C3 (the code contradicts the claim): the accessor that performs the
enumeration is `boto3.resource("s3")`, built without any credentials — it
relies on the ambient default credential chain — while the per-object fetch
client holds the resolved short-lived keys, so the two never share the
resolved credentials. -/
theorem c3_listing_uses_default_credentials (res : AwsCredsResponse) (sample : Bool) :
    (downloadSetup res sample).listing_resource.aws_access_key_id = none ∧
    (downloadSetup res sample).client.aws_access_key_id = some res.access_key ∧
    (downloadSetup res sample).listing_resource ≠ (downloadSetup res sample).client := by
  refine ⟨rfl, rfl, ?_⟩
  intro h
  have h1 : (downloadSetup res sample).listing_resource.aws_access_key_id
      = (downloadSetup res sample).client.aws_access_key_id := by rw [h]
  simp [downloadSetup, boto3_resource_s3] at h1

/-- C10: when the credentials request fails and `sbx_post` returns `None`, the
command raises an unhandled `TypeError` by subscripting `None` — before the
destination-directory prompt, before enumeration, before any file is written —
and echoes no explanatory message. -/
theorem c10_none_creds_unhandled_error (sample dirExists : Bool) (ans : String)
    (dir : Path) (fs0 : List Path) (keys : List Key) (fails : Key → Bool)
    (order : List Key) :
    downloadCommand false none sample dirExists ans dir fs0 keys fails order
      = (Except.error PyError.typeErrorNoneNotSubscriptable, ⟨false, false, [], []⟩) :=
  rfl

end Sbx
